import Mathlib

/-!
Verification of the inline projection update engine of
`@emmett-community/emmett-google-realtime-db`.

The development shallowly embeds the TypeScript sources:
* `src/projections/realtimeDBInlineProjection.ts` (retry reader, dispatcher,
  projection applier factory),
* `src/wireRealtimeDBProjections.ts` (append interceptor),
* `src/testing/realtimeDBInlineProjectionSpec.ts` (test read helper).

JavaScript bigints are modelled as `Int`; the decimal rendering used by
`BigInt.prototype.toString` and the parse performed by `BigInt(string)` are
modelled executably below.
-/

namespace EmmettRealtimeDB

/-! ## Decimal rendering of bigints (`position.toString()`) and parsing
(`BigInt(string)` in the test helper). -/

/-- Big-endian decimal digit characters of `n`, with explicit fuel so that the
definition is structurally recursive (the fuel `n` itself always suffices
because `n / 10 < n` for `n ≠ 0`). Mirrors the standard decimal rendering of a
non-negative JavaScript bigint. -/
def toDecimalAux : Nat → Nat → List Char
  | 0, _ => []
  | _ + 1, 0 => []
  | fuel + 1, n + 1 =>
    toDecimalAux fuel ((n + 1) / 10) ++ [Nat.digitChar ((n + 1) % 10)]

/-- Decimal string of a natural number, as produced by JavaScript
`toString()` on a non-negative bigint. -/
def natToDecimalString (n : Nat) : String :=
  if n = 0 then "0" else String.mk (toDecimalAux n n)

/-- Decimal string of an integer, as produced by JavaScript `toString()` on a
bigint: an optional leading minus sign followed by the digits. -/
def jsBigIntToString (i : Int) : String :=
  if i < 0 then "-" ++ natToDecimalString i.natAbs else natToDecimalString i.toNat

/-- Accumulating decimal parse of a character list (the digit-consuming loop
inside `BigInt(string)`). -/
def parseNatFold (cs : List Char) : Nat :=
  cs.foldl (fun a c => a * 10 + (c.toNat - 48)) 0

/-- Model of JavaScript `BigInt(string)` on the strings this library
produces: an optional leading minus sign followed by decimal digits. -/
def jsBigIntOfString (s : String) : Int :=
  if s.data.head? = some '-' then -(parseNatFold s.data.tail : Int)
  else (parseNatFold s.data : Int)

/-! ## Data model (from `src/projections/types.ts`) -/

/-- Default projection name (`RealtimeDBDefaultInlineProjectionName`). -/
def RealtimeDBDefaultInlineProjectionName : String := "_default"

/-- Metadata of a read event, as synthesized by the append interceptor
(`RealtimeDBReadEventMetadata`); bigints modelled as `Int`. -/
structure RealtimeDBReadEventMetadata where
  streamName : String
  streamPosition : Int
  messageId : String
deriving DecidableEq

/-- A read-shaped event: type, payload and metadata. -/
structure ReadEvent (E : Type) where
  type : String
  data : E
  metadata : RealtimeDBReadEventMetadata
deriving DecidableEq

/-- The reserved `_metadata` envelope stored with every projection document
(`RealtimeDBReadModelMetadata`); `streamPosition` is a decimal string. -/
structure RealtimeDBReadModelMetadata where
  streamId : String
  name : String
  schemaVersion : Nat
  streamPosition : String
deriving DecidableEq

/-- A value stored at a projection path, as returned by `snapshot.val()`:
either a document carrying the `_metadata` envelope (everything this engine
writes) or a plain document without one. -/
inductive StoredVal (Doc : Type) where
  | withMeta (state : Doc) (meta : RealtimeDBReadModelMetadata)
  | plain (state : Doc)
deriving DecidableEq

/-- Options accepted by the `realtimeDBInlineProjection` factory. The two
source overloads (nullable evolve, or non-null evolve plus `initialState`) are
flattened: at runtime the applier always passes the current state, which may be
`null` mid-fold even in the `initialState` variant, so `evolve` is modelled on
`Option Doc`. `'initialState' in options` corresponds to `isSome`. -/
structure RealtimeDBInlineProjectionOptions (Doc E : Type) where
  name : Option String
  schemaVersion : Option Nat
  canHandle : List String
  evolve : Option Doc → ReadEvent E → Option Doc
  initialState : Option (Unit → Doc)

/-- The single store action a projection handler performs at its own path. -/
inductive HandleAction (Doc : Type) where
  | noop
  | set (value : StoredVal Doc)
  | removeDoc
deriving DecidableEq

/-! ## Projection applier (`realtimeDBInlineProjection`, lines 233-276) -/

/-- Strip the `_metadata` envelope if present, yielding the raw prior state
(or null): lines 236-245 of `realtimeDBInlineProjection.ts`. -/
def stripMetadata {Doc : Type} : Option (StoredVal Doc) → Option Doc
  | none => none
  | some (.withMeta s _) => some s
  | some (.plain s) => some s

/-- The working state before the fold: `'initialState' in options ?
(rawDocument ?? options.initialState()) : rawDocument` (lines 247-250). -/
def workingState {Doc E : Type} (options : RealtimeDBInlineProjectionOptions Doc E)
    (document : Option (StoredVal Doc)) : Option Doc :=
  match options.initialState with
  | some init => some ((stripMetadata document).getD (init ()))
  | none => stripMetadata document

/-- The handler installed by `realtimeDBInlineProjection` (lines 233-276):
no-op on an empty batch; otherwise strip metadata, seed the working state,
fold `evolve` over all events in order, then either overwrite the document in
full with the final state plus a fresh `_metadata` envelope, or remove it. -/
def applierHandle {Doc E : Type} (options : RealtimeDBInlineProjectionOptions Doc E)
    (events : List (ReadEvent E)) (document : Option (StoredVal Doc))
    (streamId : String) : HandleAction Doc :=
  match events with
  | [] => .noop
  | e :: rest =>
    let state := (e :: rest).foldl (fun s ev => options.evolve s ev)
      (workingState options document)
    let metadata : RealtimeDBReadModelMetadata :=
      { streamId := streamId
        name := options.name.getD RealtimeDBDefaultInlineProjectionName
        schemaVersion := options.schemaVersion.getD 1
        streamPosition :=
          jsBigIntToString
            (((e :: rest).getLast (List.cons_ne_nil e rest)).metadata.streamPosition) }
    match state with
    | some st => .set (.withMeta st metadata)
    | none => .removeDoc

/-! ## Retry reader (`readSnapshotWithRetry`, lines 18-97) -/

/-- A JavaScript thrown value: either an `Error` instance with a message, or
any other value (`throw` accepts arbitrary values; the reader branches on
`instanceof Error`). -/
inductive ThrownValue where
  | errVal (msg : String)
  | nonError (tag : Nat)
deriving DecidableEq

/-- `TIMEOUT_ERROR_MESSAGE` (line 23). -/
def TIMEOUT_ERROR_MESSAGE : String := "Realtime DB read timed out."

/-- `READ_TIMEOUTS_MS` (line 18). -/
def READ_TIMEOUTS_MS : List Nat := [5000, 8000, 12000]

/-- `isTimeoutError` (lines 42-44): an `Error` instance whose message equals
the timeout message. -/
def isTimeoutError : ThrownValue → Bool
  | .errVal msg => msg = TIMEOUT_ERROR_MESSAGE
  | .nonError _ => false

/-- Message of the synthetic error thrown when retries are exhausted and the
captured value is not an `Error` instance (line 96). -/
def RETRIES_EXHAUSTED_MESSAGE : String := "Realtime DB read failed after retries."

/-- `throw lastError instanceof Error ? lastError : new Error(...)`
(lines 94-96). -/
def exhaustedThrow : Option ThrownValue → ThrownValue
  | some (.errVal msg) => .errVal msg
  | _ => .errVal RETRIES_EXHAUSTED_MESSAGE

/-- Observable side effects of one run of the retry loop. -/
inductive RetryEv where
  | attemptFailed (attempt : Nat) (error : ThrownValue)
  | reset (attempt : Nat)
  | slept (attempt : Nat) (ms : Nat)
deriving DecidableEq

/-- The retry loop of `readSnapshotWithRetry` (lines 71-96), indexed by the
remaining timeout ladder. `attempts i` is the outcome of the `i`-th
`withTimeout(projectionRef.once('value'), ...)` call: a snapshot, or a thrown
value (the fired timer throws `Error(TIMEOUT_ERROR_MESSAGE)`). After a failed
attempt the connection reset runs only when `isTimeoutError`, and the backoff
sleep runs except after the last attempt. -/
def retryAux {S : Type} (attempts : Nat → Except ThrownValue S) :
    List Nat → Nat → Option ThrownValue → Except ThrownValue S × List RetryEv
  | [], _, lastError => (.error (exhaustedThrow lastError), [])
  | _ :: rest, attempt, _ =>
    match attempts attempt with
    | .ok snapshot => (.ok snapshot, [])
    | .error e =>
      let evs := RetryEv.attemptFailed attempt e ::
        ((if isTimeoutError e then [RetryEv.reset attempt] else []) ++
          (if rest.isEmpty then [] else [RetryEv.slept attempt (500 * (attempt + 1))]))
      let next := retryAux attempts rest (attempt + 1) (some e)
      (next.1, evs ++ next.2)

/-- `readSnapshotWithRetry` (lines 64-97): run the retry loop over the whole
timeout ladder, returning the result together with the trace of failures,
connection resets and backoff sleeps. -/
def readSnapshotWithRetry {S : Type} (attempts : Nat → Except ThrownValue S) :
    Except ThrownValue S × List RetryEv :=
  retryAux attempts READ_TIMEOUTS_MS 0 none

/-! ## Dispatcher (`handleInlineProjections`, lines 99-218) -/

/-- A registered projection definition as consumed by the dispatcher
(`RealtimeDBInlineProjectionDefinition`): a name, an interest set and a
handler. The handler receives the events, the document read for it and the
stream id, and either throws or performs one action at its own path. -/
structure RealtimeDBInlineProjectionDefinition (Doc E : Type) where
  name : String
  canHandle : List String
  handle : List (ReadEvent E) → Option (StoredVal Doc) → String →
    Except ThrownValue (HandleAction Doc)

/-- The backing document store: an association list from composite paths
`projections/{projectionName}/{streamId}`, modelled as name-streamId pairs,
to stored values. -/
abbrev ProjectionDB (Doc : Type) := List ((String × String) × StoredVal Doc)

/-- `get(path)` semantics of the document store. -/
def dbGet {Doc : Type} : ProjectionDB Doc → String × String → Option (StoredVal Doc)
  | [], _ => none
  | (k, v) :: rest, p => if k = p then some v else dbGet rest p

/-- `set(path, value)`: full overwrite of the value at the path. -/
def dbSet {Doc : Type} (db : ProjectionDB Doc) (p : String × String)
    (v : StoredVal Doc) : ProjectionDB Doc :=
  (p, v) :: db.filter (fun e => e.1 ≠ p)

/-- `remove(path)`: delete the value at the path. -/
def dbRemove {Doc : Type} (db : ProjectionDB Doc) (p : String × String) :
    ProjectionDB Doc :=
  db.filter (fun e => e.1 ≠ p)

/-- Store operations issued by the dispatcher, tagged with the projection
path they address. -/
inductive DbOp (Doc : Type) where
  | read (projectionName streamId : String)
  | setDoc (projectionName streamId : String) (value : StoredVal Doc)
  | removeDoc (projectionName streamId : String)
deriving DecidableEq

/-- Path addressed by a store operation. -/
def DbOp.path {Doc : Type} : DbOp Doc → String × String
  | .read n s => (n, s)
  | .setDoc n s _ => (n, s)
  | .removeDoc n s => (n, s)

/-- Read environment: `env projectionName streamId i` tells how the `i`-th
underlying read attempt for that path behaves — `none` means
`projectionRef.once('value')` resolves (with the store's current content),
`some v` means the attempt throws `v` (a fired timer throws
`Error(TIMEOUT_ERROR_MESSAGE)`). -/
abbrev ReadEnv := String → String → Nat → Option ThrownValue

/-- Attempt outcomes for one projection path against the current store. -/
def attemptsFor {Doc : Type} (env : ReadEnv) (db : ProjectionDB Doc)
    (projectionName streamId : String) : Nat → Except ThrownValue (Option (StoredVal Doc)) :=
  fun i =>
    match env projectionName streamId i with
    | none => .ok (dbGet db (projectionName, streamId))
    | some v => .error v

/-- `handleSingleProjection` (lines 162-218): read the projection's document
through the retry reader, then run its handler; rethrow any failure. The
returned triple is (outcome, store after the call, issued operations). -/
def handleSingleProjection {Doc E : Type} (env : ReadEnv)
    (projection : RealtimeDBInlineProjectionDefinition Doc E)
    (events : List (ReadEvent E)) (streamId : String) (db : ProjectionDB Doc) :
    Except ThrownValue Unit × ProjectionDB Doc × List (DbOp Doc) :=
  match (readSnapshotWithRetry (attemptsFor env db projection.name streamId)).1 with
  | .error v => (.error v, db, [.read projection.name streamId])
  | .ok document =>
    match projection.handle events document streamId with
    | .error v => (.error v, db, [.read projection.name streamId])
    | .ok .noop => (.ok (), db, [.read projection.name streamId])
    | .ok (.set v) =>
      (.ok (), dbSet db (projection.name, streamId) v,
        [.read projection.name streamId, .setDoc projection.name streamId v])
    | .ok .removeDoc =>
      (.ok (), dbRemove db (projection.name, streamId),
        [.read projection.name streamId, .removeDoc projection.name streamId])

/-- The event types present in a batch (line 116). -/
def eventTypesOf {E : Type} (events : List (ReadEvent E)) : List String :=
  events.map (fun e => e.type)

/-- `p.canHandle.some((type) => eventTypes.includes(type))` (lines 118-120). -/
def projectionMatches {Doc E : Type} (eventTypes : List String)
    (p : RealtimeDBInlineProjectionDefinition Doc E) : Bool :=
  p.canHandle.any (fun t => eventTypes.contains t)

/-- The sequential loop over matching projections (lines 134-142): the first
failure aborts the remaining loop; successful writes are kept. -/
def processProjections {Doc E : Type} (env : ReadEnv) :
    List (RealtimeDBInlineProjectionDefinition Doc E) → List (ReadEvent E) →
    String → ProjectionDB Doc →
    Except ThrownValue Unit × ProjectionDB Doc × List (DbOp Doc)
  | [], _, _, db => (.ok (), db, [])
  | p :: rest, events, streamId, db =>
    match handleSingleProjection env p events streamId db with
    | (.error e, db', t) => (.error e, db', t)
    | (.ok _, db', t) =>
      let next := processProjections env rest events streamId db'
      (next.1, next.2.1, t ++ next.2.2)

/-- `handleInlineProjections` (lines 99-160): filter the registered
projections to those whose interest set intersects the batch's event types,
then process them sequentially in input order. -/
def handleInlineProjections {Doc E : Type} (env : ReadEnv)
    (events : List (ReadEvent E))
    (allProjections : List (RealtimeDBInlineProjectionDefinition Doc E))
    (streamId : String) (db : ProjectionDB Doc) :
    Except ThrownValue Unit × ProjectionDB Doc × List (DbOp Doc) :=
  let eventTypes := eventTypesOf events
  let projections := allProjections.filter (projectionMatches eventTypes)
  processProjections env projections events streamId db

/-- The projection definition built by the factory: pure evolve handlers never
throw, so the handler always returns its action. -/
def realtimeDBInlineProjection {Doc E : Type}
    (options : RealtimeDBInlineProjectionOptions Doc E) :
    RealtimeDBInlineProjectionDefinition Doc E :=
  { name := options.name.getD RealtimeDBDefaultInlineProjectionName
    canHandle := options.canHandle
    handle := fun events document streamId =>
      .ok (applierHandle options events document streamId) }

/-! ## Append interceptor (`wireRealtimeDBProjections.ts`) -/

/-- An event as supplied to `appendToStream` (type and payload; any caller
metadata is replaced wholesale by the interceptor's spread). -/
structure InputEvent (E : Type) where
  type : String
  data : E
deriving DecidableEq

/-- The append result shape: the newer `nextExpectedStreamVersion` field
and/or the older `streamVersion` field. -/
structure AppendResult where
  nextExpectedStreamVersion : Option Int
  streamVersion : Option Int
deriving DecidableEq

/-- `(result as any).nextExpectedStreamVersion ?? (result as any).streamVersion`
(lines 115-117): prefer the newer field name. -/
def versionValue (result : AppendResult) : Option Int :=
  match result.nextExpectedStreamVersion with
  | some v => some v
  | none => result.streamVersion

/-- `events.map((event, index) => ...)` (lines 121-134): attach
`{ streamName, streamPosition, messageId }` to each input event, where the
event at 0-based `index` gets position `nextVersion - eventsLength + 1 + index`
in exact bigint arithmetic. -/
def synthesizeAux {E : Type} (streamName : String) (nextVersion eventsLength : Int) :
    List (InputEvent E) → Nat → List (ReadEvent E)
  | [], _ => []
  | event :: rest, index =>
    let position := nextVersion - eventsLength + 1 + (index : Int)
    { type := event.type
      data := event.data
      metadata :=
        { streamName := streamName
          streamPosition := position
          messageId := streamName ++ "-" ++ jsBigIntToString position } } ::
      synthesizeAux streamName nextVersion eventsLength rest (index + 1)

/-- The full list of synthesized read events for one append. -/
def synthesizeReadEvents {E : Type} (streamName : String) (nextVersion : Int)
    (events : List (InputEvent E)) : List (ReadEvent E) :=
  synthesizeAux streamName nextVersion (events.length : Int) events 0

/-- The dispatcher invocation performed by the wrapped append (lines
136-142): synthesized events, registered projections and the stream name as
stream id. -/
structure DispatchInvocation (E : Type) where
  events : List (ReadEvent E)
  streamId : String
deriving DecidableEq

/-- The projection-side behaviour of the append wrapped by
`wireRealtimeDBProjections`, after a successful underlying append: recover
the post-append version (none available models the `BigInt(undefined)`
failure) and invoke the dispatcher with the synthesized events and the stream
name as stream id. -/
def wireRealtimeDBProjectionsDispatch {E : Type} (streamName : String)
    (events : List (InputEvent E)) (result : AppendResult) :
    Option (DispatchInvocation E) :=
  match versionValue result with
  | none => none
  | some nextVersion =>
    some { events := synthesizeReadEvents streamName nextVersion events
           streamId := streamName }

/-! ## Test read helper (`getProjectionState`,
`testing/realtimeDBInlineProjectionSpec.ts` lines 34-51) -/

/-- The `_metadata` envelope after the test helper converts `streamPosition`
back from string to bigint. -/
structure ParsedReadModelMetadata where
  streamId : String
  name : String
  schemaVersion : Nat
  streamPosition : Int
deriving DecidableEq

/-- A document as returned by `getProjectionState`. -/
inductive ProjectionStateResult (Doc : Type) where
  | withMeta (state : Doc) (meta : ParsedReadModelMetadata)
  | plain (state : Doc)
deriving DecidableEq

/-- `getProjectionState` (lines 34-51): return `null` when nothing is stored;
otherwise return the stored document, converting `_metadata.streamPosition`
from string to bigint when the envelope is present. -/
def getProjectionState {Doc : Type} (db : ProjectionDB Doc)
    (projectionName streamId : String) : Option (ProjectionStateResult Doc) :=
  match dbGet db (projectionName, streamId) with
  | none => none
  | some (.plain s) => some (.plain s)
  | some (.withMeta s m) =>
    some (.withMeta s
      { streamId := m.streamId
        name := m.name
        schemaVersion := m.schemaVersion
        streamPosition := jsBigIntOfString m.streamPosition })


/-! ## Projections of traces used by the theorems -/

/-- Path of a read operation, `none` for writes and removals. -/
def readPath? {Doc : Type} : DbOp Doc → Option (String × String)
  | .read n s => some (n, s)
  | _ => none

/-- Attempt index of a connection reset, `none` for other retry events. -/
def resetIdx? : RetryEv → Option Nat
  | .reset i => some i
  | _ => none

/-- Attempt index of a failure that satisfied `isTimeoutError`, `none`
otherwise. -/
def timeoutFailureIdx? : RetryEv → Option Nat
  | .attemptFailed i e => if isTimeoutError e then some i else none
  | _ => none

/-! ## Concrete fixtures used by witnesses and counterexamples -/

/-- Shorthand constructor for a concrete read event. -/
def mkEvent (ty : String) (pos : Int) : ReadEvent Unit :=
  { type := ty, data := ()
    metadata := { streamName := "stream", streamPosition := pos
                  messageId := "stream-" ++ jsBigIntToString pos } }

/-- Counter projection with an initial state (Scenarios A/B of the spec). -/
def counterOptions : RealtimeDBInlineProjectionOptions Nat Unit :=
  { name := none, schemaVersion := none, canHandle := ["ItemAdded"]
    evolve := fun s e => if e.type = "ItemAdded" then some (s.getD 0 + 1) else s
    initialState := some (fun _ => 0) }

/-- Nullable-mode cart projection: `CartCancelled` yields null, any other
event creates or increments (Scenario C of the spec). -/
def cartOptions : RealtimeDBInlineProjectionOptions Nat Unit :=
  { name := none, schemaVersion := none, canHandle := ["ItemAdded", "CartCancelled"]
    evolve := fun s e => if e.type = "CartCancelled" then none else some (s.getD 0 + 1)
    initialState := none }

/-- The `_metadata` envelope of the prior document in Scenario B. -/
def scenarioBPriorMeta : RealtimeDBReadModelMetadata :=
  { streamId := "shop", name := "_default", schemaVersion := 1, streamPosition := "2" }

/-- The counter projection as registered with the dispatcher. -/
def counterProjection : RealtimeDBInlineProjectionDefinition Nat Unit :=
  realtimeDBInlineProjection counterOptions

/-- A projection interested only in event types no fixture batch contains. -/
def unrelatedProjection : RealtimeDBInlineProjectionDefinition Nat Unit :=
  { name := "unrelated", canHandle := ["SomethingElse"]
    handle := fun _ _ _ => .ok .noop }

/-- A projection whose apply step throws. -/
def throwingProjection : RealtimeDBInlineProjectionDefinition Nat Unit :=
  { name := "exploding", canHandle := ["ItemAdded"]
    handle := fun _ _ _ => .error (.errVal "boom") }

/-- A read environment in which every underlying read attempt resolves. -/
def allReadsSucceed : ReadEnv := fun _ _ _ => none

/-- Scenario D attempt outcomes: the underlying fetch times out on attempts
1 and 2 and yields snapshot `42` on attempt 3. -/
def scenarioDAttempts : Nat → Except ThrownValue Nat :=
  fun i => if i < 2 then .error (.errVal TIMEOUT_ERROR_MESSAGE) else .ok 42

/-- Attempt outcomes that always throw a non-`Error` value. -/
def nonErrorAttempts : Nat → Except ThrownValue Unit :=
  fun _ => .error (.nonError 7)

/-- Decidable equality of `Except` results (not provided by the core
library), used to evaluate concrete scenarios. -/
instance {ε α : Type} [DecidableEq ε] [DecidableEq α] : DecidableEq (Except ε α) := fun x y =>
  match x, y with
  | .error a, .error b =>
    if h : a = b then isTrue (by rw [h]) else isFalse (fun hc => h (Except.error.inj hc))
  | .ok a, .ok b =>
    if h : a = b then isTrue (by rw [h]) else isFalse (fun hc => h (Except.ok.inj hc))
  | .error _, .ok _ => isFalse (fun hc => Except.noConfusion hc)
  | .ok _, .error _ => isFalse (fun hc => Except.noConfusion hc)

/-! ## Lemmas: decimal rendering round trip -/

lemma digitChar_toNat_sub (d : Nat) (hd : d < 10) : (Nat.digitChar d).toNat - 48 = d := by
  interval_cases d <;> rfl

lemma digitChar_ne_dash (d : Nat) (hd : d < 10) : Nat.digitChar d ≠ '-' := by
  interval_cases d <;> decide

lemma parseNatFold_append_digit (cs : List Char) (c : Char) :
    parseNatFold (cs ++ [c]) = parseNatFold cs * 10 + (c.toNat - 48) := by
  simp [parseNatFold, List.foldl_append]

lemma parseNatFold_toDecimalAux : ∀ (fuel n : Nat), n ≤ fuel →
    parseNatFold (toDecimalAux fuel n) = n := by
  intro fuel
  induction fuel with
  | zero => intro n hn; interval_cases n; rfl
  | succ fuel ih =>
    intro n hn
    match n with
    | 0 => rfl
    | m + 1 =>
      rw [toDecimalAux, parseNatFold_append_digit,
        ih ((m + 1) / 10) (by omega), digitChar_toNat_sub _ (Nat.mod_lt _ (by omega))]
      omega

lemma mem_toDecimalAux_ne_dash : ∀ (fuel n : Nat) (c : Char),
    c ∈ toDecimalAux fuel n → c ≠ '-' := by
  intro fuel
  induction fuel with
  | zero => intro n c hc; simp [toDecimalAux] at hc
  | succ fuel ih =>
    intro n c hc
    match n with
    | 0 => simp [toDecimalAux] at hc
    | m + 1 =>
      rw [toDecimalAux] at hc
      rcases List.mem_append.mp hc with h | h
      · exact ih _ _ h
      · rcases List.mem_singleton.mp h with rfl
        exact digitChar_ne_dash _ (Nat.mod_lt _ (by omega))

lemma parseNatFold_natToDecimalString (n : Nat) :
    parseNatFold (natToDecimalString n).data = n := by
  unfold natToDecimalString
  by_cases h : n = 0
  · subst h; rfl
  · simp only [h, if_false]
    exact parseNatFold_toDecimalAux n n le_rfl

lemma natToDecimalString_ne_nil (n : Nat) : (natToDecimalString n).data ≠ [] := by
  unfold natToDecimalString
  by_cases h : n = 0
  · subst h; simp
  · simp only [h, if_false]
    intro hnil
    have hp := parseNatFold_toDecimalAux n n le_rfl
    have hz : toDecimalAux n n = [] := hnil
    rw [hz] at hp
    simp [parseNatFold] at hp
    exact h hp.symm

lemma natToDecimalString_head_ne_dash (n : Nat) (c : Char) (cs : List Char)
    (hdata : (natToDecimalString n).data = c :: cs) : c ≠ '-' := by
  unfold natToDecimalString at hdata
  by_cases h : n = 0
  · subst h
    simp only [if_true] at hdata
    have hc : c = '0' := by
      have h0 : ('0' :: [] : List Char) = c :: cs := hdata
      exact (List.cons.injEq '0' [] c cs ▸ h0).1.symm
    subst hc; decide
  · simp only [h, if_false] at hdata
    have hc : c ∈ toDecimalAux n n := by
      have hmk : toDecimalAux n n = c :: cs := hdata
      rw [hmk]; exact List.mem_cons_self c cs
    exact mem_toDecimalAux_ne_dash n n c hc

lemma data_append (s t : String) : (s ++ t).data = s.data ++ t.data := by
  cases s; cases t; rfl

/-- Round trip between bigint rendering and parsing: `BigInt(p.toString())`
recovers `p` exactly, for every integer `p`. -/
lemma jsBigIntOfString_jsBigIntToString (i : Int) :
    jsBigIntOfString (jsBigIntToString i) = i := by
  unfold jsBigIntToString
  by_cases hneg : i < 0
  · simp only [hneg, if_true]
    have hdata : ("-" ++ natToDecimalString i.natAbs).data
        = '-' :: (natToDecimalString i.natAbs).data := by
      rw [data_append]; rfl
    unfold jsBigIntOfString
    rw [hdata, List.head?_cons, List.tail_cons, if_pos rfl]
    rw [parseNatFold_natToDecimalString]
    omega
  · simp only [hneg, if_false]
    unfold jsBigIntOfString
    rcases hdata : (natToDecimalString i.toNat).data with _ | ⟨c, cs⟩
    · exact absurd hdata (natToDecimalString_ne_nil i.toNat)
    · have hc := natToDecimalString_head_ne_dash i.toNat c cs hdata
      rw [List.head?_cons, if_neg (by simpa using hc)]
      rw [← hdata, parseNatFold_natToDecimalString]
      omega

/-! ## Lemmas: document store -/

lemma dbGet_dbSet_self {Doc : Type} (db : ProjectionDB Doc) (p : String × String)
    (v : StoredVal Doc) : dbGet (dbSet db p v) p = some v := by
  simp [dbSet, dbGet]

lemma dbGet_filter_ne {Doc : Type} (db : ProjectionDB Doc) (p : String × String) :
    dbGet (db.filter (fun e => e.1 ≠ p)) p = none := by
  induction db with
  | nil => rfl
  | cons kv rest ih =>
    by_cases h : kv.1 = p
    · simpa [List.filter_cons, h] using ih
    · simpa [List.filter_cons, h, dbGet] using ih

lemma dbGet_dbRemove_self {Doc : Type} (db : ProjectionDB Doc) (p : String × String) :
    dbGet (dbRemove db p) p = none :=
  dbGet_filter_ne db p

/-! ## Lemmas: applier unfolding -/

lemma applierHandle_cons {Doc E : Type} (options : RealtimeDBInlineProjectionOptions Doc E)
    (e : ReadEvent E) (rest : List (ReadEvent E)) (document : Option (StoredVal Doc))
    (streamId : String) :
    applierHandle options (e :: rest) document streamId =
      match (e :: rest).foldl (fun s ev => options.evolve s ev)
          (workingState options document) with
      | some st => .set (.withMeta st
          { streamId := streamId
            name := options.name.getD RealtimeDBDefaultInlineProjectionName
            schemaVersion := options.schemaVersion.getD 1
            streamPosition := jsBigIntToString
              (((e :: rest).getLast (List.cons_ne_nil e rest)).metadata.streamPosition) })
      | none => .removeDoc := rfl

/-! ## Claim theorems: projection applier -/

/-- C1: for every projection definition, stored document, stream id, and
non-empty event batch whose sequential fold yields a non-null final state,
the applier persists by full overwrite (`set`, which replaces the value at
the path entirely) exactly the final folded state merged with a `_metadata`
envelope holding the stream id, the definition's name and schema version, and
the last event's stream position rendered as a decimal string. -/
theorem C1_full_overwrite_with_metadata {Doc E : Type}
    (options : RealtimeDBInlineProjectionOptions Doc E) (events : List (ReadEvent E))
    (document : Option (StoredVal Doc)) (streamId : String) (st : Doc)
    (hne : events ≠ [])
    (hfold : events.foldl (fun s ev => options.evolve s ev) (workingState options document)
      = some st) :
    applierHandle options events document streamId =
      .set (.withMeta st
        { streamId := streamId
          name := options.name.getD RealtimeDBDefaultInlineProjectionName
          schemaVersion := options.schemaVersion.getD 1
          streamPosition := jsBigIntToString ((events.getLast hne).metadata.streamPosition) })
    ∧ ∀ (db : ProjectionDB Doc) (v : StoredVal Doc),
        dbGet (dbSet db (options.name.getD RealtimeDBDefaultInlineProjectionName, streamId) v)
          (options.name.getD RealtimeDBDefaultInlineProjectionName, streamId) = some v := by
  refine ⟨?_, fun db v => dbGet_dbSet_self db _ v⟩
  cases events with
  | nil => exact absurd rfl hne
  | cons e rest => rw [applierHandle_cons, hfold]

/-- Witness for C1: two `ItemAdded` events folded onto no prior document
yield the persisted count `2` with stream position `"1"`. -/
theorem C1_witness :
    applierHandle counterOptions [mkEvent "ItemAdded" 0, mkEvent "ItemAdded" 1] none "cart"
      = .set (.withMeta 2
          { streamId := "cart", name := "_default", schemaVersion := 1
            streamPosition := "1" })
    ∧ dbGet (dbSet ([] : ProjectionDB Nat) ("_default", "cart") (.plain 5))
        ("_default", "cart") = some (.plain 5) := by
  have h := C1_full_overwrite_with_metadata counterOptions
    [mkEvent "ItemAdded" 0, mkEvent "ItemAdded" 1] none "cart" 2 (by decide) (by decide)
  exact ⟨h.1.trans (by decide), h.2 [] (.plain 5)⟩

/-- C3 as stated is false: `evolve` returning null at an intermediate point
of the fold does not force a deletion, because the fold keeps running and a
later event of the same batch can recreate the state. Concretely, for the
nullable cart projection and the batch `[CartCancelled@0, ItemAdded@1]`,
evolve yields null after the first event, yet the applier persists a `set`,
not a removal. -/
theorem C3_counterexample :
    (([mkEvent "CartCancelled" 0, mkEvent "ItemAdded" 1].scanl
        (fun s ev => cartOptions.evolve s ev) (workingState cartOptions none)).tail.contains
        none = true)
    ∧ applierHandle cartOptions [mkEvent "CartCancelled" 0, mkEvent "ItemAdded" 1] none "cart"
        ≠ HandleAction.removeDoc := by
  decide

/-- C3 amended: if the fold's *final* state is null (in particular whenever
`evolve` returns null on the last event applied), the applier removes the
document at the projection's path, regardless of whether it previously
existed. -/
theorem C3_amended_final_null_deletes {Doc E : Type}
    (options : RealtimeDBInlineProjectionOptions Doc E) (events : List (ReadEvent E))
    (document : Option (StoredVal Doc)) (streamId : String)
    (hne : events ≠ [])
    (hfold : events.foldl (fun s ev => options.evolve s ev) (workingState options document)
      = none) :
    applierHandle options events document streamId = .removeDoc
    ∧ ∀ (db : ProjectionDB Doc) (n : String),
        dbGet (dbRemove db (n, streamId)) (n, streamId) = none := by
  refine ⟨?_, fun db n => dbGet_dbRemove_self db _⟩
  cases events with
  | nil => exact absurd rfl hne
  | cons e rest => rw [applierHandle_cons, hfold]

/-- Witness for the amended C3 (Scenario C): `[ItemAdded@0, CartCancelled@1]`
on an absent document ends with a null state and the applier removes the
document. -/
theorem C3_witness :
    applierHandle cartOptions [mkEvent "ItemAdded" 0, mkEvent "CartCancelled" 1] none "cart"
      = HandleAction.removeDoc := by
  have h := C3_amended_final_null_deletes cartOptions
    [mkEvent "ItemAdded" 0, mkEvent "CartCancelled" 1] none "cart" (by decide) (by decide)
  exact h.1

/-- C5: with `initialState`, the working state is the stored document with
its `_metadata` envelope stripped whenever a stored document exists, and
`initialState()` only when none exists; without `initialState` (nullable
mode) it is the stripped stored document as-is. Scenario B: one `ItemAdded`
at position 3 applied to prior `{count: 5}` persists `{count: 6}` with
stream position `"3"`, the initial state being ignored. -/
theorem C5_working_state_and_scenarioB :
    (∀ (Doc E : Type) (options : RealtimeDBInlineProjectionOptions Doc E)
        (init : Unit → Doc) (v : StoredVal Doc),
        options.initialState = some init →
        workingState options (some v) = stripMetadata (some v)
          ∧ workingState options none = some (init ()))
    ∧ (∀ (Doc E : Type) (options : RealtimeDBInlineProjectionOptions Doc E)
        (document : Option (StoredVal Doc)),
        options.initialState = none →
        workingState options document = stripMetadata document)
    ∧ applierHandle counterOptions [mkEvent "ItemAdded" 3]
        (some (.withMeta 5 scenarioBPriorMeta)) "shop"
      = .set (.withMeta 6
          { streamId := "shop", name := "_default", schemaVersion := 1
            streamPosition := "3" }) := by
  refine ⟨?_, ?_, by decide⟩
  · intro Doc E options init v h
    unfold workingState
    rw [h]
    exact ⟨by cases v <;> rfl, rfl⟩
  · intro Doc E options document h
    unfold workingState
    rw [h]

/-- Witness for C5: on the Scenario B fixtures, the prior document's raw
state `5` is used (initial state ignored), and the initial state `0` is used
when no document exists. -/
theorem C5_witness :
    workingState counterOptions (some (StoredVal.withMeta 5 scenarioBPriorMeta)) = some 5
    ∧ workingState counterOptions (none : Option (StoredVal Nat)) = some 0 := by
  have h := C5_working_state_and_scenarioB.1 Nat Unit counterOptions (fun _ => 0)
    (.withMeta 5 scenarioBPriorMeta) rfl
  exact ⟨h.1.trans (by decide), h.2⟩

/-- C9: an empty batch is a complete no-op — the dispatcher matches no
projection (so it issues no read, no write, and leaves the store unchanged),
and the applier's handler, invoked directly with an empty event array,
returns without any store action. -/
theorem C9_empty_batch_is_noop :
    (∀ (Doc E : Type) (env : ReadEnv)
        (projections : List (RealtimeDBInlineProjectionDefinition Doc E))
        (streamId : String) (db : ProjectionDB Doc),
        handleInlineProjections env ([] : List (ReadEvent E)) projections streamId db
          = (.ok (), db, []))
    ∧ (∀ (Doc E : Type) (options : RealtimeDBInlineProjectionOptions Doc E)
        (document : Option (StoredVal Doc)) (streamId : String),
        applierHandle options [] document streamId = .noop) := by
  refine ⟨?_, fun Doc E options document streamId => rfl⟩
  intro Doc E env projections streamId db
  show processProjections env
    (projections.filter (projectionMatches (eventTypesOf ([] : List (ReadEvent E)))))
    [] streamId db = (.ok (), db, [])
  have hfilter : projections.filter
      (projectionMatches (eventTypesOf ([] : List (ReadEvent E)))) = [] := by
    induction projections with
    | nil => rfl
    | cons p rest ih =>
      have hp : projectionMatches (eventTypesOf ([] : List (ReadEvent E))) p = false := by
        simp [projectionMatches, eventTypesOf]
      simp [List.filter_cons, hp, ih]
  rw [hfilter]
  rfl

/-! ## Lemmas: dispatcher -/

lemma handleSingleProjection_reads {Doc E : Type} (env : ReadEnv)
    (p : RealtimeDBInlineProjectionDefinition Doc E) (events : List (ReadEvent E))
    (streamId : String) (db : ProjectionDB Doc) :
    ((handleSingleProjection env p events streamId db).2.2.filterMap readPath?
      = [(p.name, streamId)])
    ∧ ∀ op ∈ (handleSingleProjection env p events streamId db).2.2,
        DbOp.path op = (p.name, streamId) := by
  unfold handleSingleProjection
  cases hr : (readSnapshotWithRetry (attemptsFor env db p.name streamId)).1 with
  | error v => simp [readPath?, DbOp.path]
  | ok document =>
    cases hh : p.handle events document streamId with
    | error v => simp [hh, readPath?, DbOp.path]
    | ok a => cases a <;> simp [hh, readPath?, DbOp.path]

lemma processProjections_cons {Doc E : Type} (env : ReadEnv)
    (p : RealtimeDBInlineProjectionDefinition Doc E)
    (rest : List (RealtimeDBInlineProjectionDefinition Doc E))
    (events : List (ReadEvent E)) (streamId : String) (db : ProjectionDB Doc) :
    processProjections env (p :: rest) events streamId db =
      match handleSingleProjection env p events streamId db with
      | (.error e, db', t) => (.error e, db', t)
      | (.ok _, db', t) =>
        ((processProjections env rest events streamId db').1,
         (processProjections env rest events streamId db').2.1,
         t ++ (processProjections env rest events streamId db').2.2) := rfl

lemma processProjections_cons_error {Doc E : Type} (env : ReadEnv)
    (p : RealtimeDBInlineProjectionDefinition Doc E)
    (rest : List (RealtimeDBInlineProjectionDefinition Doc E))
    (events : List (ReadEvent E)) (streamId : String)
    (db db' : ProjectionDB Doc) (t : List (DbOp Doc)) (e : ThrownValue)
    (hsp : handleSingleProjection env p events streamId db = (.error e, db', t)) :
    processProjections env (p :: rest) events streamId db = (.error e, db', t) := by
  rw [processProjections_cons, hsp]

lemma processProjections_cons_ok {Doc E : Type} (env : ReadEnv)
    (p : RealtimeDBInlineProjectionDefinition Doc E)
    (rest : List (RealtimeDBInlineProjectionDefinition Doc E))
    (events : List (ReadEvent E)) (streamId : String)
    (db db' : ProjectionDB Doc) (t : List (DbOp Doc))
    (hsp : handleSingleProjection env p events streamId db = (.ok (), db', t)) :
    processProjections env (p :: rest) events streamId db =
      ((processProjections env rest events streamId db').1,
       (processProjections env rest events streamId db').2.1,
       t ++ (processProjections env rest events streamId db').2.2) := by
  rw [processProjections_cons, hsp]

lemma processProjections_append_ok {Doc E : Type} (env : ReadEnv)
    (xs ys : List (RealtimeDBInlineProjectionDefinition Doc E))
    (events : List (ReadEvent E)) (streamId : String) :
    ∀ (db db1 : ProjectionDB Doc) (t1 : List (DbOp Doc)),
    processProjections env xs events streamId db = (.ok (), db1, t1) →
    processProjections env (xs ++ ys) events streamId db =
      ((processProjections env ys events streamId db1).1,
       (processProjections env ys events streamId db1).2.1,
       t1 ++ (processProjections env ys events streamId db1).2.2) := by
  induction xs with
  | nil =>
    intro db db1 t1 h
    have h' : ((Except.ok () : Except ThrownValue Unit), db, ([] : List (DbOp Doc)))
        = (.ok (), db1, t1) := h
    simp only [Prod.mk.injEq, true_and] at h'
    obtain ⟨rfl, rfl⟩ := h'
    simp
  | cons p xs ih =>
    intro db db1 t1 h
    rcases hsp : handleSingleProjection env p events streamId db with ⟨r, db', t⟩
    cases r with
    | error e =>
      rw [processProjections_cons_error env p xs events streamId db db' t e hsp] at h
      exact absurd h (by simp)
    | ok u =>
      cases u
      rw [processProjections_cons_ok env p xs events streamId db db' t hsp] at h
      rcases hx : processProjections env xs events streamId db' with ⟨rx, dbx, tx⟩
      rw [hx] at h
      simp only [Prod.mk.injEq] at h
      obtain ⟨h1, h2, h3⟩ := h
      subst h1
      subst h2
      rw [List.cons_append,
        processProjections_cons_ok env p (xs ++ ys) events streamId db db' t hsp,
        ih db' dbx tx hx]
      simp [← h3, List.append_assoc]

lemma processProjections_reads_of_ok {Doc E : Type} (env : ReadEnv)
    (events : List (ReadEvent E)) (streamId : String) :
    ∀ (ps : List (RealtimeDBInlineProjectionDefinition Doc E)) (db : ProjectionDB Doc),
    (processProjections env ps events streamId db).1 = .ok () →
    (processProjections env ps events streamId db).2.2.filterMap readPath?
      = ps.map (fun p => (p.name, streamId)) := by
  intro ps
  induction ps with
  | nil => intro db _; rfl
  | cons p rest ih =>
    intro db h
    rcases hsp : handleSingleProjection env p events streamId db with ⟨r, db', t⟩
    have hr := (handleSingleProjection_reads env p events streamId db).1
    rw [hsp] at hr
    cases r with
    | error e =>
      rw [processProjections_cons_error env p rest events streamId db db' t e hsp] at h
      exact absurd h (by simp)
    | ok u =>
      cases u
      rw [processProjections_cons_ok env p rest events streamId db db' t hsp] at h ⊢
      rw [List.filterMap_append, hr, ih db' h]
      simp

lemma processProjections_paths {Doc E : Type} (env : ReadEnv)
    (events : List (ReadEvent E)) (streamId : String) :
    ∀ (ps : List (RealtimeDBInlineProjectionDefinition Doc E)) (db : ProjectionDB Doc)
      (op : DbOp Doc),
    op ∈ (processProjections env ps events streamId db).2.2 →
    DbOp.path op ∈ ps.map (fun p => (p.name, streamId)) := by
  intro ps
  induction ps with
  | nil => intro db op h; cases h
  | cons p rest ih =>
    intro db op hop
    rcases hsp : handleSingleProjection env p events streamId db with ⟨r, db', t⟩
    have hpath : ∀ o ∈ t, DbOp.path o = (p.name, streamId) := by
      have hs := (handleSingleProjection_reads env p events streamId db).2
      rw [hsp] at hs
      exact hs
    cases r with
    | error e =>
      rw [processProjections_cons_error env p rest events streamId db db' t e hsp] at hop
      simp [hpath op hop]
    | ok u =>
      cases u
      rw [processProjections_cons_ok env p rest events streamId db db' t hsp] at hop
      rcases List.mem_append.mp hop with hmem | hmem
      · simp [hpath op hmem]
      · simp only [List.map_cons, List.mem_cons]
        exact Or.inr (ih db' op hmem)

/-! ## Claim theorems: dispatcher -/

/-- C4: a successful dispatch reads exactly the projections whose interest
set intersects the batch's event types, in the input list's order (one read
per matching projection, none for the others), and every issued store
operation addresses a matching projection's path. -/
theorem C4_filtering {Doc E : Type} (env : ReadEnv) (events : List (ReadEvent E))
    (allProjections : List (RealtimeDBInlineProjectionDefinition Doc E))
    (streamId : String) (db : ProjectionDB Doc)
    (hok : (handleInlineProjections env events allProjections streamId db).1 = .ok ()) :
    ((handleInlineProjections env events allProjections streamId db).2.2.filterMap readPath?
      = (allProjections.filter (projectionMatches (eventTypesOf events))).map
          (fun p => (p.name, streamId)))
    ∧ ∀ op ∈ (handleInlineProjections env events allProjections streamId db).2.2,
        DbOp.path op ∈ (allProjections.filter (projectionMatches (eventTypesOf events))).map
          (fun p => (p.name, streamId)) := by
  exact ⟨processProjections_reads_of_ok env events streamId _ db hok,
    fun op hop => processProjections_paths env events streamId _ db op hop⟩

/-- Witness for C4: with one `ItemAdded` event, the non-matching projection
is issued no read; the only read addresses the matching projection's path. -/
theorem C4_witness :
    (handleInlineProjections allReadsSucceed [mkEvent "ItemAdded" 0]
        [unrelatedProjection, counterProjection] "s" []).2.2.filterMap readPath?
      = [("_default", "s")] := by
  have h := C4_filtering allReadsSucceed [mkEvent "ItemAdded" 0]
    [unrelatedProjection, counterProjection] "s" [] rfl
  exact h.1.trans rfl

/-- C6: when a matching projection's read or apply step throws, no later
matching projection is processed (the trace ends with the failing
projection's operations), documents written by earlier projections in the
same dispatch remain in the store (no rollback), and the dispatch returns
the thrown error. -/
theorem C6_failure_aborts_remaining {Doc E : Type} (env : ReadEnv)
    (events : List (ReadEvent E)) (streamId : String)
    (allProjections ps1 ps2 : List (RealtimeDBInlineProjectionDefinition Doc E))
    (p : RealtimeDBInlineProjectionDefinition Doc E)
    (db db1 db2 : ProjectionDB Doc) (t1 tp : List (DbOp Doc)) (e : ThrownValue)
    (hfilter : allProjections.filter (projectionMatches (eventTypesOf events))
      = ps1 ++ p :: ps2)
    (hpre : processProjections env ps1 events streamId db = (.ok (), db1, t1))
    (hfail : handleSingleProjection env p events streamId db1 = (.error e, db2, tp)) :
    handleInlineProjections env events allProjections streamId db
      = (.error e, db2, t1 ++ tp) := by
  show processProjections env
    (allProjections.filter (projectionMatches (eventTypesOf events))) events streamId db = _
  rw [hfilter,
    processProjections_append_ok env ps1 (p :: ps2) events streamId db db1 t1 hpre,
    processProjections_cons_error env p ps2 events streamId db1 db2 tp e hfail]

/-- Witness for C6 (Scenario E): the counter projection writes, then the
exploding projection throws; the dispatch rejects with the thrown error and
the counter's document remains persisted. -/
theorem C6_witness :
    (handleInlineProjections allReadsSucceed [mkEvent "ItemAdded" 0]
        [counterProjection, throwingProjection] "s" []).1
      = .error (.errVal "boom")
    ∧ dbGet (handleInlineProjections allReadsSucceed [mkEvent "ItemAdded" 0]
        [counterProjection, throwingProjection] "s" []).2.1 ("_default", "s")
      = some (.withMeta 1
          { streamId := "s", name := "_default", schemaVersion := 1
            streamPosition := "0" }) := by
  have h := C6_failure_aborts_remaining allReadsSucceed [mkEvent "ItemAdded" 0] "s"
    [counterProjection, throwingProjection] [counterProjection] [] throwingProjection
    []
    [(("_default", "s"), StoredVal.withMeta 1
      { streamId := "s", name := "_default", schemaVersion := 1, streamPosition := "0" })]
    [(("_default", "s"), StoredVal.withMeta 1
      { streamId := "s", name := "_default", schemaVersion := 1, streamPosition := "0" })]
    [DbOp.read "_default" "s", DbOp.setDoc "_default" "s" (StoredVal.withMeta 1
      { streamId := "s", name := "_default", schemaVersion := 1, streamPosition := "0" })]
    [DbOp.read "exploding" "s"]
    (.errVal "boom") rfl rfl rfl
  exact ⟨by rw [h], by rw [h]; rfl⟩

/-! ## Lemmas: retry reader -/

lemma retryAux_resets_eq_timeouts {S : Type} (attempts : Nat → Except ThrownValue S) :
    ∀ (ts : List Nat) (idx : Nat) (lastError : Option ThrownValue),
    (retryAux attempts ts idx lastError).2.filterMap resetIdx?
      = (retryAux attempts ts idx lastError).2.filterMap timeoutFailureIdx? := by
  intro ts
  induction ts with
  | nil => intro idx lastError; rfl
  | cons t rest ih =>
    intro idx lastError
    cases ha : attempts idx with
    | ok s => simp [retryAux, ha]
    | error e =>
      by_cases ht : isTimeoutError e
      all_goals cases hrest : rest.isEmpty
      all_goals simp [retryAux, ha, ht, hrest, resetIdx?, timeoutFailureIdx?,
        List.filterMap_append, ih]

lemma readSnapshotWithRetry_all_fail {S : Type} (attempts : Nat → Except ThrownValue S)
    (es : Nat → ThrownValue)
    (hfail : ∀ i, i < READ_TIMEOUTS_MS.length → attempts i = .error (es i)) :
    (readSnapshotWithRetry attempts).1 = .error (exhaustedThrow (some (es 2))) := by
  have h0 := hfail 0 (by decide)
  have h1 := hfail 1 (by decide)
  have h2 := hfail 2 (by decide)
  simp [readSnapshotWithRetry, READ_TIMEOUTS_MS, retryAux, h0, h1, h2]

/-! ## Claim theorems: retry reader -/

/-- C7: in the retry loop, the connection reset runs after a failed attempt
if and only if that attempt failed with the read-timeout condition — the list
of reset attempt indices always equals the list of timed-out attempt indices,
so non-timeout failures are retried without a reset. In Scenario D (timeouts
on attempts 1 and 2, success on attempt 3) the read returns the third
attempt's snapshot and the reset ran exactly twice. -/
theorem C7_reset_iff_timeout :
    (∀ (S : Type) (attempts : Nat → Except ThrownValue S),
        (readSnapshotWithRetry attempts).2.filterMap resetIdx?
          = (readSnapshotWithRetry attempts).2.filterMap timeoutFailureIdx?)
    ∧ (readSnapshotWithRetry scenarioDAttempts).1 = .ok 42
    ∧ (readSnapshotWithRetry scenarioDAttempts).2.filterMap resetIdx? = [0, 1] := by
  exact ⟨fun S attempts => retryAux_resets_eq_timeouts attempts READ_TIMEOUTS_MS 0 none,
    by decide, by decide⟩

/-- C8 as stated is false in one point: when all 3 attempts fail, the thrown
error is the captured value only when that value is an `Error` instance.
Here every attempt throws a non-`Error` value, which *is* captured, yet the
reader throws the synthetic "failed after retries" error rather than the
captured value. -/
theorem C8_counterexample :
    (readSnapshotWithRetry nonErrorAttempts).1
      = .error (.errVal RETRIES_EXHAUSTED_MESSAGE)
    ∧ (readSnapshotWithRetry nonErrorAttempts).1 ≠ .error (.nonError 7) := by
  decide

/-- C8 amended: if all 3 read attempts fail, the reader throws the error
captured from the last attempt when it is an `Error` instance, and otherwise
the synthetic "failed after retries" error (this is `exhaustedThrow`); and
this error propagates out of `handleInlineProjections`, aborting the batch
after any successfully processed prefix of matching projections. -/
theorem C8_amended_exhausted_error :
    (∀ (S : Type) (attempts : Nat → Except ThrownValue S) (es : Nat → ThrownValue),
        (∀ i, i < READ_TIMEOUTS_MS.length → attempts i = .error (es i)) →
        (readSnapshotWithRetry attempts).1 = .error (exhaustedThrow (some (es 2))))
    ∧ (∀ (Doc E : Type) (env : ReadEnv) (events : List (ReadEvent E))
        (allProjections ps1 ps2 : List (RealtimeDBInlineProjectionDefinition Doc E))
        (p : RealtimeDBInlineProjectionDefinition Doc E)
        (streamId : String) (db db1 : ProjectionDB Doc) (t1 : List (DbOp Doc))
        (es : Nat → ThrownValue),
        allProjections.filter (projectionMatches (eventTypesOf events)) = ps1 ++ p :: ps2 →
        processProjections env ps1 events streamId db = (.ok (), db1, t1) →
        (∀ i, i < READ_TIMEOUTS_MS.length → env p.name streamId i = some (es i)) →
        (handleInlineProjections env events allProjections streamId db).1
          = .error (exhaustedThrow (some (es 2)))) := by
  constructor
  · exact fun S attempts es h => readSnapshotWithRetry_all_fail attempts es h
  · intro Doc E env events allProjections ps1 ps2 p streamId db db1 t1 es hfilter hpre henv
    have hread : (readSnapshotWithRetry (attemptsFor env db1 p.name streamId)).1
        = .error (exhaustedThrow (some (es 2))) := by
      refine readSnapshotWithRetry_all_fail _ es ?_
      intro i hi
      simp [attemptsFor, henv i hi]
    have hfailstep : handleSingleProjection env p events streamId db1
        = (.error (exhaustedThrow (some (es 2))), db1, [DbOp.read p.name streamId]) := by
      unfold handleSingleProjection
      rw [hread]
    show (processProjections env
      (allProjections.filter (projectionMatches (eventTypesOf events)))
      events streamId db).1 = _
    rw [hfilter,
      processProjections_append_ok env ps1 (p :: ps2) events streamId db db1 t1 hpre,
      processProjections_cons_error env p ps2 events streamId db1 db1 _ _ hfailstep]

/-- Witness for the amended C8: three identical `Error` failures make the
reader rethrow that error. -/
theorem C8_witness :
    (readSnapshotWithRetry
        (fun _ => (Except.error (ThrownValue.errVal "net down") :
          Except ThrownValue Nat))).1
      = .error (.errVal "net down") := by
  have h := C8_amended_exhausted_error.1 Nat
    (fun _ => .error (.errVal "net down")) (fun _ => .errVal "net down")
    (fun _ _ => rfl)
  exact h.trans (by decide)

/-! ## Lemmas: append interceptor -/

lemma synthesizeAux_length {E : Type} (sn : String) (V N : Int) :
    ∀ (l : List (InputEvent E)) (idx : Nat),
    (synthesizeAux sn V N l idx).length = l.length := by
  intro l
  induction l with
  | nil => intro idx; rfl
  | cons ev rest ih => intro idx; simp [synthesizeAux, ih]

lemma synthesizeAux_getElem {E : Type} (sn : String) (V N : Int) :
    ∀ (l : List (InputEvent E)) (idx i : Nat),
    (synthesizeAux sn V N l idx)[i]? = (l[i]?).map (fun ev =>
      { type := ev.type, data := ev.data
        metadata := { streamName := sn,
                      streamPosition := V - N + 1 + ((idx + i : Nat) : Int),
                      messageId := sn ++ "-" ++
                        jsBigIntToString (V - N + 1 + ((idx + i : Nat) : Int)) } }) := by
  intro l
  induction l with
  | nil => intro idx i; simp [synthesizeAux]
  | cons ev rest ih =>
    intro idx i
    cases i with
    | zero => simp [synthesizeAux]
    | succ j =>
      rw [synthesizeAux]
      simp only [List.getElem?_cons_succ]
      rw [ih (idx + 1) j]
      have harith : ((idx + 1 + j : Nat) : Int) = ((idx + (j + 1) : Nat) : Int) := by
        push_cast
        ring
      rw [harith]

/-! ## Claim theorems: append interceptor and test helper -/

/-- C2: after a successful append of `N ≥ 1` events whose result carries a
post-append version `V` (the newer field preferred over the older), the
interceptor invokes the dispatcher with the stream name as stream id and with
synthesized events preserving type and payload, where the event at 0-based
index `i` carries metadata with stream position `V − N + 1 + i` (exact
integer arithmetic) and message id `"{streamName}-{streamPosition}"`. -/
theorem C2_interceptor_positions {E : Type} (streamName : String)
    (events : List (InputEvent E)) (result : AppendResult) (V : Int) (i : Nat)
    (ev : InputEvent E)
    (hv : versionValue result = some V)
    (hN : 1 ≤ events.length)
    (hev : events[i]? = some ev) :
    wireRealtimeDBProjectionsDispatch streamName events result
      = some { events := synthesizeReadEvents streamName V events
               streamId := streamName }
    ∧ (synthesizeReadEvents streamName V events).length = events.length
    ∧ (synthesizeReadEvents streamName V events)[i]? = some
        { type := ev.type, data := ev.data
          metadata := { streamName := streamName,
                        streamPosition := V - (events.length : Int) + 1 + (i : Int),
                        messageId := streamName ++ "-" ++
                          jsBigIntToString
                            (V - (events.length : Int) + 1 + (i : Int)) } } := by
  refine ⟨?_, synthesizeAux_length streamName V _ events 0, ?_⟩
  · unfold wireRealtimeDBProjectionsDispatch
    rw [hv]
  · rw [synthesizeReadEvents, synthesizeAux_getElem streamName V _ events 0 i, hev]
    simp

/-- Witness for C2: appending `[A, B]` with post-append version 5 assigns
positions 4 and 5; the second synthesized event carries position 5 and
message id `"orders-5"`. -/
theorem C2_witness :
    wireRealtimeDBProjectionsDispatch "orders"
      [({ type := "A", data := () } : InputEvent Unit), { type := "B", data := () }]
      { nextExpectedStreamVersion := some 5, streamVersion := none }
      = some { events := synthesizeReadEvents "orders" 5
                 [{ type := "A", data := () }, { type := "B", data := () }]
               streamId := "orders" }
    ∧ (synthesizeReadEvents "orders" 5
        [({ type := "A", data := () } : InputEvent Unit), { type := "B", data := () }])[1]?
      = some { type := "B", data := ()
               metadata := { streamName := "orders", streamPosition := 5
                             messageId := "orders-5" } } := by
  have h := C2_interceptor_positions "orders"
    [{ type := "A", data := () }, { type := "B", data := () }]
    { nextExpectedStreamVersion := some 5, streamVersion := none } 5 1
    { type := "B", data := () } rfl (by decide) rfl
  exact ⟨h.1, h.2.2.trans (by decide)⟩

/-- C10: a document persisted by the applier stores in its envelope the
decimal rendering of the last folded event's position `p`; the test helper
`getProjectionState` returns that document with the state and the other
envelope fields unchanged and with the stream position parsed back to a
bigint equal to `p`; and `getProjectionState` returns null exactly when
nothing is stored at the projection's path. -/
theorem C10_roundtrip {Doc E : Type} (options : RealtimeDBInlineProjectionOptions Doc E)
    (events : List (ReadEvent E)) (document : Option (StoredVal Doc))
    (streamId : String) (st : Doc) (meta : RealtimeDBReadModelMetadata)
    (hne : events ≠ [])
    (hset : applierHandle options events document streamId = .set (.withMeta st meta)) :
    meta.streamPosition = jsBigIntToString ((events.getLast hne).metadata.streamPosition)
    ∧ (∀ (db : ProjectionDB Doc) (n s : String),
        getProjectionState (dbSet db (n, s) (.withMeta st meta)) n s
          = some (.withMeta st
              { streamId := meta.streamId, name := meta.name
                schemaVersion := meta.schemaVersion
                streamPosition := (events.getLast hne).metadata.streamPosition }))
    ∧ (∀ (db : ProjectionDB Doc) (n s : String),
        (getProjectionState db n s = none ↔ dbGet db (n, s) = none)) := by
  have hmeta : meta.streamPosition
      = jsBigIntToString ((events.getLast hne).metadata.streamPosition) := by
    cases events with
    | nil => exact absurd rfl hne
    | cons e rest =>
      rw [applierHandle_cons] at hset
      cases hf : (e :: rest).foldl (fun s ev => options.evolve s ev)
          (workingState options document) with
      | none =>
        rw [hf] at hset
        exact HandleAction.noConfusion hset
      | some stf =>
        rw [hf] at hset
        have hset' : (HandleAction.set (StoredVal.withMeta stf
            { streamId := streamId
              name := options.name.getD RealtimeDBDefaultInlineProjectionName
              schemaVersion := options.schemaVersion.getD 1
              streamPosition := jsBigIntToString
                (((e :: rest).getLast (List.cons_ne_nil e rest)).metadata.streamPosition) })
            : HandleAction Doc) = .set (.withMeta st meta) := hset
        injection hset' with h1
        injection h1 with ha hb
        rw [← hb]
  refine ⟨hmeta, ?_, ?_⟩
  · intro db n s
    have hget : dbGet (dbSet db (n, s) (StoredVal.withMeta st meta)) (n, s)
        = some (.withMeta st meta) := dbGet_dbSet_self db (n, s) _
    unfold getProjectionState
    rw [hget]
    show some (ProjectionStateResult.withMeta st
      { streamId := meta.streamId, name := meta.name
        schemaVersion := meta.schemaVersion
        streamPosition := jsBigIntOfString meta.streamPosition }) = _
    rw [hmeta, jsBigIntOfString_jsBigIntToString]
  · intro db n s
    unfold getProjectionState
    cases hg : dbGet db (n, s) with
    | none => simp
    | some v => cases v <;> simp

/-- Witness for C10: the document written for two `ItemAdded` events (last
position 1) reads back with stream position `1` as a bigint and all other
fields unchanged. -/
theorem C10_witness :
    getProjectionState (dbSet ([] : ProjectionDB Nat) ("_default", "cart")
        (.withMeta 2 { streamId := "cart", name := "_default", schemaVersion := 1
                       streamPosition := "1" })) "_default" "cart"
      = some (.withMeta 2 { streamId := "cart", name := "_default", schemaVersion := 1
                            streamPosition := 1 }) := by
  have h := C10_roundtrip counterOptions [mkEvent "ItemAdded" 0, mkEvent "ItemAdded" 1]
    none "cart" 2
    { streamId := "cart", name := "_default", schemaVersion := 1, streamPosition := "1" }
    (by decide) (by decide)
  exact (h.2.1 [] "_default" "cart").trans (by decide)

end EmmettRealtimeDB
